import Mathlib

/-!
The `Camera` class of directionalLight/camera.h

A shallow embedding of the `Camera` class of `src/directionalLight/camera.h`.

C++ `float` is modelled by an arbitrary linearly ordered field `α` (rationals are
executable, the reals carry the trigonometric functions): no rounding, no NaN, and a
literal such as `89.9f` is the decimal `89.9`.  The functions the header takes from
`<cmath>` and glm (`cos`, `sin`, `sqrt`, the constant pi) are not part of the repository;
they are the fields of `GlmMath`, passed explicitly to the code that calls them.  The glm
vector operations (`+`, `-`, `*`, `dot`, `cross`, `normalize`, `length`, `radians`) follow
glm's own definitions.  `GetViewMatrix` is not modelled.
-/

namespace CameraH

/-- The type `glm::vec3`. -/
structure Vec3 (α : Type) where
  x : α
  y : α
  z : α
deriving DecidableEq

namespace Vec3

variable {α : Type}

instance [Zero α] : Zero (Vec3 α) := ⟨⟨0, 0, 0⟩⟩

/-- Componentwise `vec3 + vec3`. -/
instance [Add α] : Add (Vec3 α) := ⟨fun a b => ⟨a.x + b.x, a.y + b.y, a.z + b.z⟩⟩

/-- Componentwise `vec3 - vec3`. -/
instance [Sub α] : Sub (Vec3 α) := ⟨fun a b => ⟨a.x - b.x, a.y - b.y, a.z - b.z⟩⟩

/-- The product `vec3 * float`. -/
instance [Mul α] : HMul (Vec3 α) α (Vec3 α) := ⟨fun a s => ⟨a.x * s, a.y * s, a.z * s⟩⟩

/-- The function `glm::dot`. -/
def dot [Add α] [Mul α] (a b : Vec3 α) : α := a.x * b.x + a.y * b.y + a.z * b.z

/-- The function `glm::cross`. -/
def cross [Sub α] [Mul α] (a b : Vec3 α) : Vec3 α :=
  ⟨a.y * b.z - b.y * a.z, a.z * b.x - b.z * a.x, a.x * b.y - b.x * a.y⟩

end Vec3

/-- The library functions used by `updateCameraVectors` that are not arithmetic:
`cos`, `sin`, `sqrt` and the constant pi behind `glm::radians`. -/
structure GlmMath (α : Type) where
  cos : α → α
  sin : α → α
  sqrt : α → α
  pi : α

/-- The function `glm::radians`: degrees times pi / 180. -/
def radians {α : Type} [Field α] (m : GlmMath α) (degrees : α) : α :=
  degrees * (m.pi / 180)

/-- The function `glm::length`: the square root of `dot v v`. -/
def length {α : Type} [Field α] (m : GlmMath α) (v : Vec3 α) : α :=
  m.sqrt (Vec3.dot v v)

/-- The function `glm::normalize`: `v * inversesqrt (dot v v)`. -/
def normalize {α : Type} [Field α] (m : GlmMath α) (v : Vec3 α) : Vec3 α :=
  v * (1 / m.sqrt (Vec3.dot v v))

/-- The enumeration `Camera_Movement`. -/
inductive Camera_Movement where
  | FORWARD
  | BACKWARD
  | LEFT
  | RIGHT
deriving DecidableEq

section Defaults

variable {α : Type} [LinearOrderedField α]

/-- The constant `YAW`. -/
def YAW : α := -90

/-- The constant `PITCH`. -/
def PITCH : α := 0

/-- The constant `SPEED`. -/
def SPEED : α := 2.5

/-- The constant `SENSITIVITY`. -/
def SENSITIVITY : α := 0.25

/-- The constant `ZOOM`. -/
def ZOOM : α := 45.0

end Defaults

/-- The data members of `class Camera`. -/
structure Camera (α : Type) where
  Position : Vec3 α
  Front : Vec3 α
  Up : Vec3 α
  Right : Vec3 α
  WorldUp : Vec3 α
  Yaw : α
  Pitch : α
  MovementSpeed : α
  MouseSensitivity : α
  Zoom : α
deriving DecidableEq

section Code

variable {α : Type} [LinearOrderedField α]

/-- The local `front` of `updateCameraVectors`, before it is normalised. -/
def frontOf (m : GlmMath α) (c : Camera α) : Vec3 α :=
  ⟨m.cos (radians m c.Yaw) * m.cos (radians m c.Pitch),
   m.sin (radians m c.Pitch),
   m.sin (radians m c.Yaw) * m.cos (radians m c.Pitch)⟩

/-- The method `Camera::updateCameraVectors`. -/
def updateCameraVectors (m : GlmMath α) (c : Camera α) : Camera α :=
  let front := frontOf m c
  let c := { c with Front := normalize m front }
  let c := { c with Right := normalize m (Vec3.cross c.Front c.WorldUp) }
  { c with Up := normalize m (Vec3.cross c.Right c.Front) }

/-- The state of the vector constructor when its body reaches `updateCameraVectors`:
the member initialisers and the four assignments.  `Up` and `Right` have no initialiser;
they hold zero here and are overwritten by the call. -/
def Camera.preinit (position up : Vec3 α) (yaw pitch : α) : Camera α :=
  { Position := position
    Front := ⟨0, 0, -1⟩
    Up := 0
    Right := 0
    WorldUp := up
    Yaw := yaw
    Pitch := pitch
    MovementSpeed := SPEED
    MouseSensitivity := SENSITIVITY
    Zoom := ZOOM }

/-- The constructor `Camera::Camera(position, up, yaw, pitch)`. -/
def Camera.new (m : GlmMath α) (position up : Vec3 α) (yaw pitch : α) : Camera α :=
  updateCameraVectors m (Camera.preinit position up yaw pitch)

/-- The constructor called with its default arguments only. -/
def Camera.default (m : GlmMath α) : Camera α :=
  Camera.new m ⟨0, 0, 0⟩ ⟨0, 1, 0⟩ YAW PITCH

/-- The method `Camera::ProcessKeyboard`. -/
def ProcessKeyboard (c : Camera α) (direction : Camera_Movement) (deltaTime : α) : Camera α :=
  let velocity := c.MovementSpeed * deltaTime
  let c := if direction = Camera_Movement.FORWARD then
    { c with Position := c.Position + c.Front * velocity } else c
  let c := if direction = Camera_Movement.BACKWARD then
    { c with Position := c.Position - c.Front * velocity } else c
  let c := if direction = Camera_Movement.LEFT then
    { c with Position := c.Position - c.Right * velocity } else c
  let c := if direction = Camera_Movement.RIGHT then
    { c with Position := c.Position + c.Right * velocity } else c
  c

/-- The body of `Camera::ProcessMouseMovement` up to, and without, its closing call of
`updateCameraVectors`. -/
def lookAngles (c : Camera α) (xoffset yoffset : α) (constraintPitch : Bool) : Camera α :=
  let xoffset := xoffset * c.MouseSensitivity
  let yoffset := yoffset * c.MouseSensitivity
  let c := { c with Yaw := c.Yaw + xoffset }
  let c := { c with Pitch := c.Pitch + yoffset }
  if constraintPitch then
    if c.Pitch > 89.9 then { c with Pitch := 89.9 }
    else if c.Pitch < -89.9 then { c with Pitch := -89.9 }
    else c
  else c

/-- The method `Camera::ProcessMouseMovement`. -/
def ProcessMouseMovement (m : GlmMath α) (c : Camera α) (xoffset yoffset : α)
    (constraintPitch : Bool) : Camera α :=
  updateCameraVectors m (lookAngles c xoffset yoffset constraintPitch)

/-- The method `Camera::ProcessMouseScroll`. -/
def ProcessMouseScroll (c : Camera α) (yoffset : α) : Camera α :=
  if c.Zoom ≥ 1.0 ∧ c.Zoom ≤ 45.0 then { c with Zoom := c.Zoom - yoffset }
  else if c.Zoom < 1.0 then { c with Zoom := 1.0 }
  else if c.Zoom > 45.0 then { c with Zoom := 45.0 }
  else c

end Code

section Runs

variable {α : Type} [LinearOrderedField α]

/-- One call of a public method of `Camera`, with its arguments. -/
inductive Op (α : Type) where
  | keyboard (direction : Camera_Movement) (deltaTime : α)
  | mouse (xoffset yoffset : α) (constraintPitch : Bool)
  | scroll (yoffset : α)

/-- The state after one call. -/
def Camera.step (m : GlmMath α) (c : Camera α) : Op α → Camera α
  | Op.keyboard direction deltaTime => ProcessKeyboard c direction deltaTime
  | Op.mouse xoffset yoffset constraintPitch =>
      ProcessMouseMovement m c xoffset yoffset constraintPitch
  | Op.scroll yoffset => ProcessMouseScroll c yoffset

/-- The state after a sequence of calls, first call first. -/
def Camera.run (m : GlmMath α) (c : Camera α) (ops : List (Op α)) : Camera α :=
  ops.foldl (Camera.step m) c

/-- The successive values of `Zoom` after each call of `ProcessMouseScroll` with the
deltas `ys`, in order. -/
def zoomTrace (c : Camera α) : List α → List α
  | [] => []
  | y :: ys => (ProcessMouseScroll c y).Zoom :: zoomTrace (ProcessMouseScroll c y) ys

end Runs

section SpecSide

variable {α : Type} [LinearOrderedField α]

/-- The clamp of the specification: `x` brought into `[lo, hi]`. -/
def clamp (x lo hi : α) : α := max lo (min x hi)

/-- The axis of the specification's movement table. -/
def moveAxis (c : Camera α) : Camera_Movement → Vec3 α
  | Camera_Movement.FORWARD => c.Front
  | Camera_Movement.BACKWARD => c.Front
  | Camera_Movement.LEFT => c.Right
  | Camera_Movement.RIGHT => c.Right

/-- The sign of the specification's movement table. -/
def moveSign : Camera_Movement → α
  | Camera_Movement.FORWARD => 1
  | Camera_Movement.BACKWARD => -1
  | Camera_Movement.LEFT => -1
  | Camera_Movement.RIGHT => 1

/-- The stored basis is the one `updateCameraVectors` derives from the current `Yaw`,
`Pitch` and `WorldUp`. -/
def basisIsFresh (m : GlmMath α) (c : Camera α) : Prop :=
  c.Front = normalize m
    ⟨m.cos (radians m c.Yaw) * m.cos (radians m c.Pitch),
     m.sin (radians m c.Pitch),
     m.sin (radians m c.Yaw) * m.cos (radians m c.Pitch)⟩ ∧
  c.Right = normalize m (Vec3.cross c.Front c.WorldUp) ∧
  c.Up = normalize m (Vec3.cross c.Right c.Front)

end SpecSide

/-- The library functions over exact real arithmetic. -/
noncomputable def glmReal : GlmMath ℝ :=
  { cos := Real.cos, sin := Real.sin, sqrt := Real.sqrt, pi := Real.pi }

/-- A camera over the rationals in the state of the default construction. -/
def sampleQ : Camera ℚ :=
  { Position := 0, Front := ⟨0, 0, -1⟩, Up := ⟨0, 1, 0⟩, Right := ⟨1, 0, 0⟩, WorldUp := ⟨0, 1, 0⟩
    Yaw := -90, Pitch := 0, MovementSpeed := 2.5, MouseSensitivity := 0.25, Zoom := 45 }

/-! ## Vector algebra -/

section Algebra

variable {α : Type} [LinearOrderedField α]

omit [LinearOrderedField α] in
theorem Vec3.ext_iff3 (a b : Vec3 α) : a = b ↔ a.x = b.x ∧ a.y = b.y ∧ a.z = b.z := by
  cases a; cases b; simp

theorem Vec3.add_def (a b : Vec3 α) : a + b = ⟨a.x + b.x, a.y + b.y, a.z + b.z⟩ := rfl

theorem Vec3.sub_def (a b : Vec3 α) : a - b = ⟨a.x - b.x, a.y - b.y, a.z - b.z⟩ := rfl

theorem Vec3.mul_def (a : Vec3 α) (s : α) : a * s = ⟨a.x * s, a.y * s, a.z * s⟩ := rfl

theorem Vec3.zero_def : (0 : Vec3 α) = ⟨0, 0, 0⟩ := rfl

theorem Vec3.add_mul_sub_mul (p v : Vec3 α) (s : α) : p + v * s - v * s = p := by
  simp [Vec3.ext_iff3, Vec3.add_def, Vec3.sub_def, Vec3.mul_def]

end Algebra

/-! ## Zoom -/

section Zoom

variable {α : Type} [LinearOrderedField α]

/-- What `ProcessMouseScroll` does to a `Zoom` inside `[1, 45]`: the delta is subtracted
and the result is stored as it is. -/
theorem ProcessMouseScroll_in_range (c : Camera α) (yoffset : α)
    (h1 : 1 ≤ c.Zoom) (h2 : c.Zoom ≤ 45) :
    ProcessMouseScroll c yoffset = { c with Zoom := c.Zoom - yoffset } := by
  have h : c.Zoom ≥ 1.0 ∧ c.Zoom ≤ 45.0 := by norm_num; exact ⟨h1, h2⟩
  simp only [ProcessMouseScroll, if_pos h]

end Zoom

/-- C1, at the failing input: from the freshly constructed camera (`Zoom = 45`) the single
call `ProcessMouseScroll(50)` leaves `Zoom = -5`, below the lower bound `1`; the clamp to
`1` only happens on the following call. -/
theorem C1_zoom_leaves_range_after_one_scroll :
    (Camera.default glmReal).Zoom = 45 ∧
    zoomTrace (Camera.default glmReal) [50, 0] = [-5, 1] ∧
    ¬ (1 ≤ (ProcessMouseScroll (Camera.default glmReal) 50).Zoom) := by
  have h0 : (Camera.default glmReal).Zoom = 45 := by
    norm_num [Camera.default, Camera.new, updateCameraVectors, Camera.preinit, ZOOM]
  refine ⟨h0, ?_, ?_⟩
  · simp only [zoomTrace]
    norm_num [ProcessMouseScroll, h0]
  · norm_num [ProcessMouseScroll, h0]

/-- C2, at the failing input: from `Zoom = 45` the call `ProcessMouseScroll(50)` stores
`45 - 50 = -5`, while the clamp of the claim gives `clamp (45 - 50) 1 45 = 1`. -/
theorem C2_zoom_not_clamped_on_update :
    sampleQ.Zoom = 45 ∧ (ProcessMouseScroll sampleQ 50).Zoom = -5 ∧
    clamp (sampleQ.Zoom - 50) 1 45 = 1 := by
  norm_num [ProcessMouseScroll, sampleQ, clamp]

/-! ## Looking around -/

section Look

variable {α : Type} [LinearOrderedField α]

theorem updateCameraVectors_frame (m : GlmMath α) (c : Camera α) :
    (updateCameraVectors m c).Position = c.Position ∧
    (updateCameraVectors m c).WorldUp = c.WorldUp ∧
    (updateCameraVectors m c).Yaw = c.Yaw ∧
    (updateCameraVectors m c).Pitch = c.Pitch ∧
    (updateCameraVectors m c).MovementSpeed = c.MovementSpeed ∧
    (updateCameraVectors m c).MouseSensitivity = c.MouseSensitivity ∧
    (updateCameraVectors m c).Zoom = c.Zoom := by
  simp [updateCameraVectors]

theorem lookAngles_Pitch (c : Camera α) (dx dy : α) (b : Bool) :
    (lookAngles c dx dy b).Pitch =
      if b then clamp (c.Pitch + dy * c.MouseSensitivity) (-89.9) 89.9
      else c.Pitch + dy * c.MouseSensitivity := by
  have hlo : (-89.9 : α) ≤ 89.9 := by norm_num
  cases b
  · simp [lookAngles]
  · simp only [lookAngles, if_true, clamp, gt_iff_lt]
    by_cases h1 : (89.9 : α) < c.Pitch + dy * c.MouseSensitivity
    · rw [if_pos h1, min_eq_right h1.le, max_eq_right hlo]
    · rw [if_neg h1, min_eq_left (not_lt.mp h1)]
      by_cases h2 : c.Pitch + dy * c.MouseSensitivity < -89.9
      · rw [if_pos h2, max_eq_left h2.le]
      · rw [if_neg h2, max_eq_right (not_lt.mp h2)]

theorem lookAngles_frame (c : Camera α) (dx dy : α) (b : Bool) :
    (lookAngles c dx dy b).Yaw = c.Yaw + dx * c.MouseSensitivity ∧
    (lookAngles c dx dy b).Position = c.Position ∧
    (lookAngles c dx dy b).WorldUp = c.WorldUp ∧
    (lookAngles c dx dy b).MovementSpeed = c.MovementSpeed ∧
    (lookAngles c dx dy b).MouseSensitivity = c.MouseSensitivity ∧
    (lookAngles c dx dy b).Zoom = c.Zoom := by
  cases b
  · simp [lookAngles]
  · simp only [lookAngles, if_true]
    split_ifs <;> simp

theorem clamp_mem (x lo hi : α) (h : lo ≤ hi) : lo ≤ clamp x lo hi ∧ clamp x lo hi ≤ hi :=
  ⟨le_max_left _ _, max_le h (min_le_right _ _)⟩

end Look

/-- C3: after `ProcessMouseMovement(dx, dy, true)` from any state the pitch lies in
`[-89.9, 89.9]`; and from `Pitch = 0` with the default sensitivity `0.25`, whatever the
other members, `ProcessMouseMovement(0, 1000, true)` leaves `Pitch = 89.9`. -/
theorem C3_pitch_clamped {α : Type} [LinearOrderedField α] (m : GlmMath α) (c : Camera α)
    (dx dy : α) :
    (-89.9 ≤ (ProcessMouseMovement m c dx dy true).Pitch ∧
      (ProcessMouseMovement m c dx dy true).Pitch ≤ 89.9) ∧
    (ProcessMouseMovement m { c with Pitch := 0, MouseSensitivity := SENSITIVITY }
      0 1000 true).Pitch = 89.9 := by
  have hlo : (-89.9 : α) ≤ 89.9 := by norm_num
  simp only [ProcessMouseMovement, (updateCameraVectors_frame m _).2.2.2.1, lookAngles_Pitch,
    if_true]
  refine ⟨clamp_mem _ _ _ hlo, ?_⟩
  have h : (89.9 : α) ≤ 0 + 1000 * SENSITIVITY := by norm_num [SENSITIVITY]
  rw [clamp, min_eq_right h, max_eq_right hlo]

/-- C8: `ProcessMouseMovement(dx, dy, c)` adds `dx * MouseSensitivity` to the yaw without
any clamp, sets the pitch to `Pitch + dy * MouseSensitivity`, clamped into
`[-89.9, 89.9]` exactly when `c` is true, and leaves `Position`, `WorldUp`,
`MovementSpeed`, `MouseSensitivity` and `Zoom` as they were. -/
theorem C8_look_update {α : Type} [LinearOrderedField α] (m : GlmMath α) (c : Camera α)
    (dx dy : α) (constraintPitch : Bool) :
    (ProcessMouseMovement m c dx dy constraintPitch).Yaw = c.Yaw + dx * c.MouseSensitivity ∧
    (ProcessMouseMovement m c dx dy constraintPitch).Pitch =
      (if constraintPitch then clamp (c.Pitch + dy * c.MouseSensitivity) (-89.9) 89.9
       else c.Pitch + dy * c.MouseSensitivity) ∧
    (ProcessMouseMovement m c dx dy constraintPitch).Position = c.Position ∧
    (ProcessMouseMovement m c dx dy constraintPitch).WorldUp = c.WorldUp ∧
    (ProcessMouseMovement m c dx dy constraintPitch).MovementSpeed = c.MovementSpeed ∧
    (ProcessMouseMovement m c dx dy constraintPitch).MouseSensitivity = c.MouseSensitivity ∧
    (ProcessMouseMovement m c dx dy constraintPitch).Zoom = c.Zoom := by
  obtain ⟨u1, u2, u3, u4, u5, u6, u7⟩ :=
    updateCameraVectors_frame m (lookAngles c dx dy constraintPitch)
  obtain ⟨l1, l2, l3, l4, l5, l6⟩ := lookAngles_frame c dx dy constraintPitch
  simp only [ProcessMouseMovement, u1, u2, u3, u4, u5, u6, u7, l1, l2, l3, l4, l5, l6,
    lookAngles_Pitch, and_self]

/-! ## Moving -/

section Move

variable {α : Type} [LinearOrderedField α]

theorem ProcessKeyboard_eq (c : Camera α) (d : Camera_Movement) (dt : α) :
    ProcessKeyboard c d dt =
      { c with Position := c.Position + moveAxis c d * (moveSign d * (c.MovementSpeed * dt)) } := by
  cases d <;>
    simp [ProcessKeyboard, moveAxis, moveSign, Vec3.ext_iff3, Vec3.add_def, Vec3.sub_def,
      Vec3.mul_def, sub_eq_add_neg]

end Move

/-- C5: `ProcessKeyboard(FORWARD, dt)` followed by `ProcessKeyboard(BACKWARD, dt)` gives
back the original state, `Position` included, for every `dt`; the call in between leaves
the orientation (`Front`, `Right`, `Up`, `Yaw`, `Pitch`) as it was. -/
theorem C5_forward_backward_round_trip {α : Type} [LinearOrderedField α] (c : Camera α)
    (deltaTime : α) :
    (ProcessKeyboard (ProcessKeyboard c Camera_Movement.FORWARD deltaTime)
      Camera_Movement.BACKWARD deltaTime).Position = c.Position ∧
    ProcessKeyboard (ProcessKeyboard c Camera_Movement.FORWARD deltaTime)
      Camera_Movement.BACKWARD deltaTime = c ∧
    (ProcessKeyboard c Camera_Movement.FORWARD deltaTime).Front = c.Front ∧
    (ProcessKeyboard c Camera_Movement.FORWARD deltaTime).Right = c.Right ∧
    (ProcessKeyboard c Camera_Movement.FORWARD deltaTime).Up = c.Up ∧
    (ProcessKeyboard c Camera_Movement.FORWARD deltaTime).Yaw = c.Yaw ∧
    (ProcessKeyboard c Camera_Movement.FORWARD deltaTime).Pitch = c.Pitch := by
  have h : ProcessKeyboard (ProcessKeyboard c Camera_Movement.FORWARD deltaTime)
      Camera_Movement.BACKWARD deltaTime = c := by
    simp [ProcessKeyboard, Vec3.add_mul_sub_mul]
  refine ⟨by rw [h], h, ?_⟩
  simp [ProcessKeyboard]

/-- C6: `ProcessKeyboard(d, dt)` replaces `Position` by
`Position + axis * (s * (MovementSpeed * dt))`, with `(axis, s)` being `(Front, 1)`,
`(Front, -1)`, `(Right, -1)`, `(Right, 1)` for `FORWARD`, `BACKWARD`, `LEFT`, `RIGHT`, and
changes no other member; with `dt = 0` the state is unchanged. -/
theorem C6_movement_postcondition {α : Type} [LinearOrderedField α] (c : Camera α)
    (d : Camera_Movement) (deltaTime : α) :
    ProcessKeyboard c d deltaTime =
      { c with Position :=
          c.Position + moveAxis c d * (moveSign d * (c.MovementSpeed * deltaTime)) } ∧
    ProcessKeyboard c d 0 = c := by
  refine ⟨ProcessKeyboard_eq c d deltaTime, ?_⟩
  rw [ProcessKeyboard_eq]
  cases c with
  | mk P F U R W y p s ms z =>
    simp [Vec3.ext_iff3, Vec3.add_def, Vec3.mul_def]

/-! ## The derived basis is never stale -/

section Fresh

variable {α : Type} [LinearOrderedField α]

theorem basisIsFresh_update (m : GlmMath α) (c : Camera α) :
    basisIsFresh m (updateCameraVectors m c) := by
  simp [basisIsFresh, updateCameraVectors, frontOf]

theorem updateCameraVectors_of_fresh (m : GlmMath α) (c : Camera α) (h : basisIsFresh m c) :
    updateCameraVectors m c = c := by
  obtain ⟨h1, h2, h3⟩ := h
  cases c with
  | mk P F U R W y p s ms z =>
    simp only at h1 h2 h3
    simp only [updateCameraVectors, frontOf, Camera.mk.injEq, true_and, and_true]
    rw [← h1, ← h2, ← h3]
    exact ⟨rfl, rfl, rfl⟩

theorem basisIsFresh_keyboard (m : GlmMath α) (c : Camera α) (d : Camera_Movement) (dt : α)
    (h : basisIsFresh m c) : basisIsFresh m (ProcessKeyboard c d dt) := by
  rw [ProcessKeyboard_eq]
  exact h

theorem basisIsFresh_scroll (m : GlmMath α) (c : Camera α) (y : α)
    (h : basisIsFresh m c) : basisIsFresh m (ProcessMouseScroll c y) := by
  unfold ProcessMouseScroll
  split_ifs <;> exact h

theorem basisIsFresh_step (m : GlmMath α) (c : Camera α) (op : Op α)
    (h : basisIsFresh m c) : basisIsFresh m (Camera.step m c op) := by
  cases op with
  | keyboard d dt => exact basisIsFresh_keyboard m c d dt h
  | mouse dx dy b => exact basisIsFresh_update m _
  | scroll y => exact basisIsFresh_scroll m c y h

theorem ProcessMouseScroll_WorldUp (c : Camera α) (y : α) :
    (ProcessMouseScroll c y).WorldUp = c.WorldUp := by
  unfold ProcessMouseScroll
  split_ifs <;> rfl

theorem step_WorldUp (m : GlmMath α) (c : Camera α) (op : Op α) :
    (Camera.step m c op).WorldUp = c.WorldUp := by
  cases op with
  | keyboard d dt => simp [Camera.step, ProcessKeyboard_eq]
  | mouse dx dy b =>
    simp only [Camera.step, ProcessMouseMovement, (updateCameraVectors_frame m _).2.1,
      (lookAngles_frame c dx dy b).2.2.1]
  | scroll y => exact ProcessMouseScroll_WorldUp c y

theorem run_basisIsFresh (m : GlmMath α) (ops : List (Op α)) :
    ∀ c : Camera α, basisIsFresh m c → basisIsFresh m (Camera.run m c ops) := by
  induction ops with
  | nil => intro c h; exact h
  | cons op ops ih => intro c h; exact ih _ (basisIsFresh_step m c op h)

theorem run_WorldUp (m : GlmMath α) (ops : List (Op α)) :
    ∀ c : Camera α, (Camera.run m c ops).WorldUp = c.WorldUp := by
  induction ops with
  | nil => intro c; rfl
  | cons op ops ih =>
    intro c
    exact (ih (Camera.step m c op)).trans (step_WorldUp m c op)

end Fresh

/-- C10: after the constructor and after any sequence of calls of `ProcessKeyboard`,
`ProcessMouseMovement` and `ProcessMouseScroll`, the stored `Front`, `Right`, `Up` are
the values `updateCameraVectors` computes from the current `Yaw`, `Pitch`, `WorldUp`
(so a further call of it changes nothing), and `WorldUp` is the constructor's argument. -/
theorem C10_basis_fresh {α : Type} [LinearOrderedField α] (m : GlmMath α)
    (position up : Vec3 α) (yaw pitch : α) (ops : List (Op α)) :
    basisIsFresh m (Camera.run m (Camera.new m position up yaw pitch) ops) ∧
    updateCameraVectors m (Camera.run m (Camera.new m position up yaw pitch) ops) =
      Camera.run m (Camera.new m position up yaw pitch) ops ∧
    (Camera.run m (Camera.new m position up yaw pitch) ops).WorldUp = up := by
  have h : basisIsFresh m (Camera.run m (Camera.new m position up yaw pitch) ops) :=
    run_basisIsFresh m ops _ (basisIsFresh_update m (Camera.preinit position up yaw pitch))
  refine ⟨h, updateCameraVectors_of_fresh m _ h, ?_⟩
  · rw [run_WorldUp]
    exact (updateCameraVectors_frame m _).2.1

/-! ## The basis over the reals -/

section RealBasis

theorem normalize_of_dot_eq_one (v : Vec3 ℝ) (h : Vec3.dot v v = 1) :
    normalize glmReal v = v := by
  simp [normalize, glmReal, h, Vec3.mul_def]

theorem normalize_of_dot_eq_sq (v : Vec3 ℝ) (s : ℝ) (hs : 0 < s) (h : Vec3.dot v v = s ^ 2) :
    normalize glmReal v = v * (1 / s) := by
  simp [normalize, glmReal, h, Real.sqrt_sq hs.le]

theorem cos_radians_pos (p : ℝ) (h1 : -90 < p) (h2 : p < 90) :
    0 < Real.cos (radians glmReal p) := by
  apply Real.cos_pos_of_mem_Ioo
  have hpi := Real.pi_pos
  have e : radians glmReal p = p * (Real.pi / 180) := rfl
  rw [e]
  constructor <;> nlinarith

/-- The three normalisations of `updateCameraVectors` for `WorldUp = (0, 1, 0)`, with the
cosine and sine of the yaw (`cy`, `sy`) and of the pitch (`cp`, `sp`) as plain numbers. -/
theorem basis_algebra (cy sy cp sp : ℝ) (hy : cy ^ 2 + sy ^ 2 = 1) (hp : cp ^ 2 + sp ^ 2 = 1)
    (hc : 0 < cp) :
    normalize glmReal ⟨cy * cp, sp, sy * cp⟩ = ⟨cy * cp, sp, sy * cp⟩ ∧
    normalize glmReal (Vec3.cross ⟨cy * cp, sp, sy * cp⟩ ⟨0, 1, 0⟩) = ⟨-sy, 0, cy⟩ ∧
    normalize glmReal (Vec3.cross ⟨-sy, 0, cy⟩ ⟨cy * cp, sp, sy * cp⟩) =
      ⟨-(cy * sp), cp, -(sy * sp)⟩ := by
  refine ⟨?_, ?_, ?_⟩
  · apply normalize_of_dot_eq_one
    simp only [Vec3.dot]
    linear_combination cp ^ 2 * hy + hp
  · rw [normalize_of_dot_eq_sq _ cp hc]
    · simp only [Vec3.cross, Vec3.mul_def, Vec3.mk.injEq]
      refine ⟨?_, ?_, ?_⟩ <;> field_simp
    · simp only [Vec3.cross, Vec3.dot]
      linear_combination cp ^ 2 * hy
  · rw [normalize_of_dot_eq_one]
    · simp only [Vec3.cross, Vec3.mk.injEq]
      refine ⟨by ring, by linear_combination cp * hy, by ring⟩
    · simp only [Vec3.cross, Vec3.dot]
      linear_combination sp ^ 2 * hy + cp ^ 2 * (cy ^ 2 + sy ^ 2 + 1) * hy + hp

/-- The basis `updateCameraVectors` stores when `WorldUp = (0, 1, 0)` and the pitch is
strictly between -90 and 90 degrees, in closed form. -/
theorem updateCameraVectors_real (c : Camera ℝ) (hW : c.WorldUp = ⟨0, 1, 0⟩)
    (h1 : -90 < c.Pitch) (h2 : c.Pitch < 90) :
    (updateCameraVectors glmReal c).Front =
      ⟨Real.cos (radians glmReal c.Yaw) * Real.cos (radians glmReal c.Pitch),
       Real.sin (radians glmReal c.Pitch),
       Real.sin (radians glmReal c.Yaw) * Real.cos (radians glmReal c.Pitch)⟩ ∧
    (updateCameraVectors glmReal c).Right =
      ⟨-Real.sin (radians glmReal c.Yaw), 0, Real.cos (radians glmReal c.Yaw)⟩ ∧
    (updateCameraVectors glmReal c).Up =
      ⟨-(Real.cos (radians glmReal c.Yaw) * Real.sin (radians glmReal c.Pitch)),
       Real.cos (radians glmReal c.Pitch),
       -(Real.sin (radians glmReal c.Yaw) * Real.sin (radians glmReal c.Pitch))⟩ := by
  obtain ⟨hF, hR, hU⟩ := basis_algebra _ _ _ _ (Real.cos_sq_add_sin_sq (radians glmReal c.Yaw))
    (Real.cos_sq_add_sin_sq (radians glmReal c.Pitch)) (cos_radians_pos c.Pitch h1 h2)
  have e : frontOf glmReal c =
      ⟨Real.cos (radians glmReal c.Yaw) * Real.cos (radians glmReal c.Pitch),
       Real.sin (radians glmReal c.Pitch),
       Real.sin (radians glmReal c.Yaw) * Real.cos (radians glmReal c.Pitch)⟩ := rfl
  simp only [updateCameraVectors, e, hF, hW, hR, hU, and_self]

/-- Orthonormality of the closed-form basis. -/
theorem basis_orthonormal (cy sy cp sp : ℝ) (hy : cy ^ 2 + sy ^ 2 = 1)
    (hp : cp ^ 2 + sp ^ 2 = 1) :
    length glmReal ⟨cy * cp, sp, sy * cp⟩ = 1 ∧
    length glmReal ⟨-sy, 0, cy⟩ = 1 ∧
    length glmReal ⟨-(cy * sp), cp, -(sy * sp)⟩ = 1 ∧
    Vec3.dot (⟨cy * cp, sp, sy * cp⟩ : Vec3 ℝ) ⟨-sy, 0, cy⟩ = 0 ∧
    Vec3.dot (⟨cy * cp, sp, sy * cp⟩ : Vec3 ℝ) ⟨-(cy * sp), cp, -(sy * sp)⟩ = 0 ∧
    Vec3.dot (⟨-sy, 0, cy⟩ : Vec3 ℝ) ⟨-(cy * sp), cp, -(sy * sp)⟩ = 0 := by
  have e1 : Vec3.dot (⟨cy * cp, sp, sy * cp⟩ : Vec3 ℝ) ⟨cy * cp, sp, sy * cp⟩ = 1 := by
    simp only [Vec3.dot]
    linear_combination cp ^ 2 * hy + hp
  have e2 : Vec3.dot (⟨-sy, 0, cy⟩ : Vec3 ℝ) ⟨-sy, 0, cy⟩ = 1 := by
    simp only [Vec3.dot]
    linear_combination hy
  have e3 : Vec3.dot (⟨-(cy * sp), cp, -(sy * sp)⟩ : Vec3 ℝ) ⟨-(cy * sp), cp, -(sy * sp)⟩ = 1 := by
    simp only [Vec3.dot]
    linear_combination sp ^ 2 * hy + hp
  have s1 : glmReal.sqrt 1 = 1 := Real.sqrt_one
  refine ⟨?_, ?_, ?_, ?_, ?_, ?_⟩
  · rw [length, e1, s1]
  · rw [length, e2, s1]
  · rw [length, e3, s1]
  · simp only [Vec3.dot]
    ring
  · simp only [Vec3.dot]
    linear_combination (-(sp * cp)) * hy
  · simp only [Vec3.dot]
    ring

end RealBasis

/-- C4: over the reals, for every yaw and every pitch strictly between -90 and 90 degrees,
with `WorldUp = (0, 1, 0)`, the `Front`, `Right`, `Up` stored by `updateCameraVectors`
have length 1 and pairwise dot product 0. -/
theorem C4_orthonormal_basis (c : Camera ℝ) (hW : c.WorldUp = ⟨0, 1, 0⟩)
    (h1 : -90 < c.Pitch) (h2 : c.Pitch < 90) :
    length glmReal (updateCameraVectors glmReal c).Front = 1 ∧
    length glmReal (updateCameraVectors glmReal c).Right = 1 ∧
    length glmReal (updateCameraVectors glmReal c).Up = 1 ∧
    Vec3.dot (updateCameraVectors glmReal c).Front (updateCameraVectors glmReal c).Right = 0 ∧
    Vec3.dot (updateCameraVectors glmReal c).Front (updateCameraVectors glmReal c).Up = 0 ∧
    Vec3.dot (updateCameraVectors glmReal c).Right (updateCameraVectors glmReal c).Up = 0 := by
  obtain ⟨hF, hR, hU⟩ := updateCameraVectors_real c hW h1 h2
  rw [hF, hR, hU]
  exact basis_orthonormal _ _ _ _ (Real.cos_sq_add_sin_sq (radians glmReal c.Yaw))
    (Real.cos_sq_add_sin_sq (radians glmReal c.Pitch))

/-- C4 at the state of the default construction: yaw -90, pitch 0, `WorldUp = (0, 1, 0)`. -/
theorem C4_orthonormal_basis_witness :
    length glmReal (updateCameraVectors glmReal
      (Camera.preinit ⟨0, 0, 0⟩ ⟨0, 1, 0⟩ YAW PITCH)).Front = 1 ∧
    length glmReal (updateCameraVectors glmReal
      (Camera.preinit ⟨0, 0, 0⟩ ⟨0, 1, 0⟩ YAW PITCH)).Right = 1 ∧
    length glmReal (updateCameraVectors glmReal
      (Camera.preinit ⟨0, 0, 0⟩ ⟨0, 1, 0⟩ YAW PITCH)).Up = 1 ∧
    Vec3.dot (updateCameraVectors glmReal (Camera.preinit ⟨0, 0, 0⟩ ⟨0, 1, 0⟩ YAW PITCH)).Front
      (updateCameraVectors glmReal (Camera.preinit ⟨0, 0, 0⟩ ⟨0, 1, 0⟩ YAW PITCH)).Right = 0 ∧
    Vec3.dot (updateCameraVectors glmReal (Camera.preinit ⟨0, 0, 0⟩ ⟨0, 1, 0⟩ YAW PITCH)).Front
      (updateCameraVectors glmReal (Camera.preinit ⟨0, 0, 0⟩ ⟨0, 1, 0⟩ YAW PITCH)).Up = 0 ∧
    Vec3.dot (updateCameraVectors glmReal (Camera.preinit ⟨0, 0, 0⟩ ⟨0, 1, 0⟩ YAW PITCH)).Right
      (updateCameraVectors glmReal (Camera.preinit ⟨0, 0, 0⟩ ⟨0, 1, 0⟩ YAW PITCH)).Up = 0 :=
  C4_orthonormal_basis (Camera.preinit ⟨0, 0, 0⟩ ⟨0, 1, 0⟩ YAW PITCH) rfl
    (by norm_num [Camera.preinit, PITCH]) (by norm_num [Camera.preinit, PITCH])

/-! ## The default camera -/

section DefaultCamera

theorem radians_neg_ninety : radians glmReal (-90) = -(Real.pi / 2) := by
  have e : radians glmReal (-90) = -90 * (Real.pi / 180) := rfl
  rw [e]
  ring

theorem radians_zero : radians glmReal 0 = 0 := by
  have e : radians glmReal 0 = 0 * (Real.pi / 180) := rfl
  rw [e]
  ring

theorem default_Front : (Camera.default glmReal).Front = ⟨0, 0, -1⟩ := by
  have h := (updateCameraVectors_real (Camera.preinit ⟨0, 0, 0⟩ ⟨0, 1, 0⟩ YAW PITCH) rfl
    (by norm_num [Camera.preinit, PITCH]) (by norm_num [Camera.preinit, PITCH])).1
  have hy : (Camera.preinit (⟨0, 0, 0⟩ : Vec3 ℝ) ⟨0, 1, 0⟩ YAW PITCH).Yaw = -90 := rfl
  have hp : (Camera.preinit (⟨0, 0, 0⟩ : Vec3 ℝ) ⟨0, 1, 0⟩ YAW PITCH).Pitch = 0 := rfl
  rw [hy, hp, radians_neg_ninety, radians_zero] at h
  simpa [Camera.default, Camera.new] using h

theorem default_members :
    (Camera.default glmReal).Position = ⟨0, 0, 0⟩ ∧
    (Camera.default glmReal).WorldUp = ⟨0, 1, 0⟩ ∧
    (Camera.default glmReal).Yaw = -90 ∧
    (Camera.default glmReal).Pitch = 0 ∧
    (Camera.default glmReal).MovementSpeed = 2.5 ∧
    (Camera.default glmReal).MouseSensitivity = 0.25 ∧
    (Camera.default glmReal).Zoom = 45 := by
  obtain ⟨u1, u2, u3, u4, u5, u6, u7⟩ :=
    updateCameraVectors_frame glmReal (Camera.preinit ⟨0, 0, 0⟩ ⟨0, 1, 0⟩ YAW PITCH)
  simp only [Camera.default, Camera.new, u1, u2, u3, u4, u5, u6, u7]
  norm_num [Camera.preinit, YAW, PITCH, SPEED, SENSITIVITY, ZOOM]

end DefaultCamera

/-- C7: over the reals, the camera constructed at `(0, 0, 0)` with `WorldUp = (0, 1, 0)`,
yaw -90 and pitch 0 has `Front = (0, 0, -1)` and `MovementSpeed = 2.5`, and
`ProcessKeyboard(FORWARD, 1.0)` moves its `Position` to `(0, 0, -2.5)`. -/
theorem C7_default_orientation :
    (Camera.new glmReal ⟨0, 0, 0⟩ ⟨0, 1, 0⟩ (-90) 0).Front = ⟨0, 0, -1⟩ ∧
    (Camera.new glmReal ⟨0, 0, 0⟩ ⟨0, 1, 0⟩ (-90) 0).MovementSpeed = 2.5 ∧
    (ProcessKeyboard (Camera.new glmReal ⟨0, 0, 0⟩ ⟨0, 1, 0⟩ (-90) 0)
      Camera_Movement.FORWARD 1.0).Position = ⟨0, 0, -2.5⟩ := by
  have e : Camera.new glmReal ⟨0, 0, 0⟩ ⟨0, 1, 0⟩ (-90) 0 = Camera.default glmReal := rfl
  obtain ⟨hP, -, -, -, hS, -, -⟩ := default_members
  rw [e]
  refine ⟨default_Front, hS, ?_⟩
  rw [ProcessKeyboard_eq]
  simp only [moveAxis, moveSign, default_Front, hP, hS, Vec3.add_def, Vec3.mul_def,
    Vec3.mk.injEq]
  norm_num

end CameraH
